import Mathlib

/-!
Verification of the availability-constrained weekly schedule assignment engine
of the marathon-plan generator.

The definitions below are a shallow embedding of the TypeScript sources:
* `src/generator/generators/strength-scheduler.ts`
* `src/generator/generators/week-generator.ts`
* `src/generator/generators/workout-generator.ts`
* `src/generator/parsers/normalize.ts` (the `isDateBlocked` part of the
  blocked-dates parser) and the date helpers of `date-math.ts`.

Modelling conventions:
* TypeScript `number` values used as quantities (distances, hours) are
  modelled as exact rationals `ℚ`; counters and durations as `Nat`/`ℤ`.
  `Math.round x` is `⌊x + 1/2⌋` (JS rounds half toward positive infinity).
* A JS `Map` is modelled as an insertion-ordered association list; `set`
  replaces in place when the key is present and appends otherwise, exactly
  like the ECMAScript `Map`.
* JS `Date` values are modelled as a count of days since 1970-01-01 (the
  sources only ever construct UTC-midnight dates, add whole days to them,
  and format them as `YYYY-MM-DD`).
* JS string comparison (`<=` on strings, used for ISO dates) is code-unit
  lexicographic; `strLe` below implements exactly that on code points,
  which agrees with UTF-16 code-unit order on these ASCII strings.
-/

namespace Marathon

/-- `DayOfWeek` from `src/generator/types/intake.ts`. -/
inductive Day where
  | monday | tuesday | wednesday | thursday | friday | saturday | sunday
deriving DecidableEq, Repr

/-- `DAYS_IN_ORDER` from `strength-scheduler.ts` (also `week-generator.ts`). -/
def DAYS_IN_ORDER : List Day :=
  [Day.monday, Day.tuesday, Day.wednesday, Day.thursday, Day.friday,
   Day.saturday, Day.sunday]

/-- `RunType` from `src/generator/types/plan.ts`. -/
inductive RunType where
  | rest | easy | long | tempo | intervals | fartlek | race_pace
  | recovery | cross_training | hill_repeats | progression
deriving DecidableEq, Repr

/-- `Phase` from `src/generator/types/plan.ts`. -/
inductive Phase where
  | base | build | peak | taper | race
deriving DecidableEq, Repr

/-- `PlanLevel` from `src/generator/types/plan.ts`. -/
inductive PlanLevel where
  | conservative | moderate | ambitious
deriving DecidableEq, Repr

/-- `StrengthType` from `src/generator/types/plan.ts`. -/
inductive StrengthType where
  | full_body | upper_body | lower_body | core | mobility
deriving DecidableEq, Repr

/-- `StrengthPreferences` from `src/generator/types/intake.ts`. -/
structure StrengthPreferences where
  daysPerWeek : Nat
  preferredDays : List Day
  avoidBeforeLongRun : Bool
  notes : Option String := none

/-- `StrengthAllocation` from `strength-scheduler.ts`. -/
structure StrengthAllocation where
  day : Day
  type : StrengthType
  timing : String
  duration : Nat
  notes : Option String
deriving DecidableEq, Repr

/-- `isSpeedWorkout` from `strength-scheduler.ts`. -/
def isSpeedWorkout (runType : RunType) : Bool :=
  [RunType.tempo, RunType.intervals, RunType.hill_repeats, RunType.fartlek,
   RunType.race_pace].contains runType

/-- `isLongRun` from `strength-scheduler.ts`. -/
def isLongRun (runType : RunType) : Bool :=
  [RunType.long, RunType.progression].contains runType

/-- Index of a day in `DAYS_IN_ORDER` (`indexOf` in the source). -/
def dayIdx (day : Day) : Nat := DAYS_IN_ORDER.indexOf day

/-- `getPreviousDay` from `strength-scheduler.ts`.
`(idx - 1 + 7) % 7` in JS integer arithmetic equals `(idx + 6) % 7`. -/
def getPreviousDay (day : Day) : Day :=
  DAYS_IN_ORDER.getD ((dayIdx day + 6) % 7) Day.monday

/-- `getNextDay` from `strength-scheduler.ts`. -/
def getNextDay (day : Day) : Day :=
  DAYS_IN_ORDER.getD ((dayIdx day + 1) % 7) Day.monday

/-- The realized day-to-run-type map (`Map<DayOfWeek, RunType>`); the
scheduler only ever calls `.get` on it, so it is modelled as a function. -/
def WorkoutMap : Type := Day → Option RunType

/-- `canDoHeavyLegs` from `strength-scheduler.ts` lines 69-89.  Note that the
source fetches `dayAfterWorkout` (the workout two days after `day`) but never
tests it; the embedding reproduces that faithfully. -/
def canDoHeavyLegs (day : Day) (weekWorkouts : WorkoutMap) : Bool :=
  let prevDay := getPreviousDay day
  let nextDay := getNextDay day
  let _dayAfterNext := getNextDay nextDay
  let prevWorkout := weekWorkouts prevDay
  let nextWorkout := weekWorkouts nextDay
  -- const dayAfterWorkout = weekWorkouts.get(dayAfterNext);  (never used)
  if prevWorkout.elim false isSpeedWorkout then false
  else if nextWorkout.elim false isSpeedWorkout then false
  else if nextWorkout.elim false isLongRun then false
  else true

/-- `canLiftOnDay` from `strength-scheduler.ts` lines 94-105. -/
def canLiftOnDay (day : Day) (weekWorkouts : WorkoutMap) : Bool :=
  let nextDay := getNextDay day
  let nextWorkout := weekWorkouts nextDay
  if nextWorkout.elim false isLongRun then false
  else true

/-- `baseDurations` table inside `getStrengthDuration`. -/
def baseDurations : StrengthType → Nat
  | StrengthType.full_body => 35
  | StrengthType.lower_body => 40
  | StrengthType.upper_body => 30
  | StrengthType.core => 20
  | StrengthType.mobility => 15

/-- JS `Math.round` on an exact rational. -/
def jsRound (x : ℚ) : ℤ := ⌊x + 1/2⌋

/-- JS `Math.round` where the result is used as a nonnegative count. -/
def jsRoundNat (x : ℚ) : Nat := (jsRound x).toNat

/-- `getStrengthDuration` from `strength-scheduler.ts` lines 110-134. -/
def getStrengthDuration (type : StrengthType) (phase : Phase)
    (isRecoveryWeek : Bool) : Nat :=
  if isRecoveryWeek then
    (if type = StrengthType.core then 15 else 25)
  else
    let base := baseDurations type
    if phase = Phase.peak then jsRoundNat ((base : ℚ) * (7/10))
    else if phase = Phase.taper then jsRoundNat ((base : ℚ) * (1/2))
    else base

/-- `getStrengthDaysForPhase` from `strength-scheduler.ts` lines 144-164.
`Math.max(1, preferredDays - 1)` agrees with truncated `Nat` subtraction, and
`Math.ceil(preferredDays / 2)` is the rational ceiling. -/
def getStrengthDaysForPhase (preferredDays : Nat) (phase : Phase)
    (isRecoveryWeek : Bool) : Nat :=
  if isRecoveryWeek then 1
  else
    match phase with
    | Phase.base => preferredDays
    | Phase.build => max 1 (preferredDays - 1)
    | Phase.peak => min 2 (Nat.ceil ((preferredDays : ℚ) / 2))
    | Phase.taper => 0
    | Phase.race => 0

/-- Association-list model of a JS `Map`: `set` (replace in place when the
key exists, append otherwise). -/
def mapSet {α : Type} (m : List (Day × α)) (k : Day) (v : α) : List (Day × α) :=
  if m.any (fun p => p.1 = k) then
    m.map (fun p => if p.1 = k then (k, v) else p)
  else m ++ [(k, v)]

/-- Association-list model of `Map.get`. -/
def mapGet {α : Type} (m : List (Day × α)) (k : Day) : Option α :=
  (m.find? (fun p => p.1 = k)).map Prod.snd

/-- Association-list model of `Map.has`. -/
def mapHas {α : Type} (m : List (Day × α)) (k : Day) : Bool :=
  m.any (fun p => p.1 = k)

/-- Keys of the association-list map, in insertion order. -/
def mapKeys {α : Type} (m : List (Day × α)) : List Day := m.map Prod.fst

/-- Loop state of the allocation loop in `scheduleStrengthForWeek`
(`allocations`, `legsScheduled`, `upperScheduled`, `sessionsScheduled`). -/
structure AllocState where
  allocations : List (Day × StrengthAllocation)
  legsScheduled : Bool
  upperScheduled : Bool
  sessionsScheduled : Nat

/-- One allocation: `allocations.set(day, {...}); sessionsScheduled++` with
the given flag updates. -/
def mkAlloc (s : AllocState) (day : Day) (type : StrengthType) (timing : String)
    (notes : Option String) (phase : Phase) (isRecoveryWeek : Bool)
    (legs upper : Bool) : AllocState :=
  { allocations := mapSet s.allocations day
      { day := day, type := type, timing := timing,
        duration := getStrengthDuration type phase isRecoveryWeek,
        notes := notes }
    legsScheduled := legs
    upperScheduled := upper
    sessionsScheduled := s.sessionsScheduled + 1 }

/-- One iteration of the `for (const day of sortedDays)` loop of
`scheduleStrengthForWeek` (lines 209-255).  The `break` on
`sessionsScheduled >= targetDays` is modelled by leaving the state unchanged,
which is equivalent because `sessionsScheduled` never decreases. -/
def allocStep (weekWorkouts : WorkoutMap) (phase : Phase) (isRecoveryWeek : Bool)
    (targetDays : Nat) (s : AllocState) (day : Day) : AllocState :=
  if s.sessionsScheduled ≥ targetDays then s
  else
    let dayRun := weekWorkouts day
    let canDoLegs := canDoHeavyLegs day weekWorkouts
    let runTiming := if dayRun.isSome then "After run" else "Any time"
    if isRecoveryWeek then
      mkAlloc s day StrengthType.full_body ("Light session")
        (some ("Recovery week - lighter weight, fewer sets"))
        phase isRecoveryWeek s.legsScheduled s.upperScheduled
    else if phase = Phase.peak then
      mkAlloc s day
        (if s.sessionsScheduled = 0 then StrengthType.lower_body else StrengthType.core)
        ("Light - maintenance only") none
        phase isRecoveryWeek s.legsScheduled s.upperScheduled
    else if canDoLegs && !s.legsScheduled then
      mkAlloc s day StrengthType.lower_body runTiming
        (if phase = Phase.build then some ("Build phase - reduced volume from base") else none)
        phase isRecoveryWeek true s.upperScheduled
    else if !s.upperScheduled then
      mkAlloc s day StrengthType.upper_body runTiming none
        phase isRecoveryWeek s.legsScheduled true
    else
      mkAlloc s day StrengthType.core runTiming none
        phase isRecoveryWeek s.legsScheduled s.upperScheduled

/-- Sort key used by the comparator `(a, b) => aPreferred - bPreferred`. -/
def prefRank (preferredDays : List Day) (day : Day) : Nat :=
  if day ∈ preferredDays then 0 else 1

/-- `scheduleStrengthForWeek` from `strength-scheduler.ts` lines 169-258.
`availableDays.sort(comparator)` is a stable sort (ES2019); stable insertion
sort (`List.insertionSort` with the non-strict rank order) computes exactly
the same list. -/
def scheduleStrengthForWeek (weekWorkouts : WorkoutMap)
    (preferences : StrengthPreferences) (phase : Phase)
    (isRecoveryWeek : Bool) : List (Day × StrengthAllocation) :=
  let targetDays := getStrengthDaysForPhase preferences.daysPerWeek phase isRecoveryWeek
  if targetDays = 0 then []
  else
    let availableDays := DAYS_IN_ORDER.filter (fun d => canLiftOnDay d weekWorkouts)
    let sortedDays := availableDays.insertionSort
      (fun a b => prefRank preferences.preferredDays a ≤ prefRank preferences.preferredDays b)
    (sortedDays.foldl (allocStep weekWorkouts phase isRecoveryWeek targetDays)
      { allocations := [], legsScheduled := false, upperScheduled := false,
        sessionsScheduled := 0 }).allocations

/-! ### Map lemmas -/

lemma mapSet_of_not_mem {α : Type} {m : List (Day × α)} {k : Day} {v : α}
    (h : k ∉ mapKeys m) : mapSet m k v = m ++ [(k, v)] := by
  unfold mapSet
  rw [if_neg]
  intro hany
  rcases List.any_eq_true.mp hany with ⟨p, hp, hk⟩
  exact h (List.mem_map.mpr ⟨p, hp, (of_decide_eq_true hk).symm ▸ rfl⟩)

lemma mem_mapKeys_mapSet {α : Type} {m : List (Day × α)} {k k' : Day} {v : α}
    (h : k' ∈ mapKeys (mapSet m k v)) : k' = k ∨ k' ∈ mapKeys m := by
  unfold mapSet at h
  split at h
  · rcases List.mem_map.mp h with ⟨p, hp, hpk⟩
    rcases List.mem_map.mp hp with ⟨q, hq, hqk⟩
    by_cases hc : q.1 = k
    · left
      rw [if_pos hc] at hqk
      rw [← hqk] at hpk; exact hpk ▸ rfl
    · right
      rw [if_neg (by simpa using hc)] at hqk
      exact hpk ▸ hqk ▸ List.mem_map.mpr ⟨q, hq, rfl⟩
  · rcases List.mem_map.mp h with ⟨p, hp, hpk⟩
    rcases List.mem_append.mp hp with hp | hp
    · right; exact hpk ▸ List.mem_map.mpr ⟨p, hp, rfl⟩
    · left; simp at hp; rw [← hpk, hp]

/-- Number of allocations of a given strength type among the map's values. -/
def countType (t : StrengthType) (m : List (Day × StrengthAllocation)) : Nat :=
  m.countP (fun p => p.2.type = t)

lemma countType_append_single (t : StrengthType)
    (m : List (Day × StrengthAllocation)) (k : Day) (a : StrengthAllocation) :
    countType t (m ++ [(k, a)]) =
      countType t m + (if a.type = t then 1 else 0) := by
  unfold countType
  rw [List.countP_append]
  congr 1
  by_cases h : a.type = t <;> simp [List.countP_singleton, h]

/-! ### Allocation-loop lemmas -/

lemma allocStep_of_ge {w : WorkoutMap} {phase : Phase} {rec : Bool}
    {target : Nat} {s : AllocState} {d : Day}
    (h : target ≤ s.sessionsScheduled) : allocStep w phase rec target s d = s := by
  unfold allocStep
  rw [if_pos h]

lemma allocStep_of_lt {w : WorkoutMap} {phase : Phase} {rec : Bool}
    {target : Nat} {s : AllocState} (d : Day)
    (h : s.sessionsScheduled < target) :
    ∃ a legs upper,
      allocStep w phase rec target s d =
        { allocations := mapSet s.allocations d a,
          legsScheduled := legs, upperScheduled := upper,
          sessionsScheduled := s.sessionsScheduled + 1 } ∧
      (a.type = StrengthType.lower_body →
         rec = false ∧ ((phase = Phase.peak ∧ s.sessionsScheduled = 0) ∨
                        (phase ≠ Phase.peak ∧ s.legsScheduled = false))) ∧
      (a.type = StrengthType.upper_body →
         rec = false ∧ phase ≠ Phase.peak ∧ s.upperScheduled = false ∧ upper = true) ∧
      (rec = false → phase ≠ Phase.peak → a.type = StrengthType.lower_body →
         legs = true) ∧
      (s.legsScheduled = true → legs = true) ∧
      (s.upperScheduled = true → upper = true) := by
  unfold allocStep
  rw [if_neg (by omega)]
  by_cases hrec : rec = true
  · refine ⟨_, _, _, by rw [if_pos hrec]; rfl, ?_, ?_, ?_, ?_, ?_⟩ <;> simp [hrec, mkAlloc]
  · have hrec' : rec = false := by simpa using hrec
    by_cases hpk : phase = Phase.peak
    · by_cases hz : s.sessionsScheduled = 0
      · refine ⟨_, _, _, by rw [if_neg (by simp [hrec']), if_pos hpk, if_pos hz]; rfl,
          ?_, ?_, ?_, ?_, ?_⟩ <;> simp [hrec', hpk, hz, mkAlloc]
      · refine ⟨_, _, _, by rw [if_neg (by simp [hrec']), if_pos hpk, if_neg hz]; rfl,
          ?_, ?_, ?_, ?_, ?_⟩ <;> simp [hrec', hpk, hz, mkAlloc]
    · by_cases hlegs : (canDoHeavyLegs d w && !s.legsScheduled) = true
      · have hl : s.legsScheduled = false := by
          simp only [Bool.and_eq_true, Bool.not_eq_true'] at hlegs
          exact hlegs.2
        refine ⟨_, _, _,
          by rw [if_neg (by simp [hrec']), if_neg hpk, if_pos hlegs]; rfl,
          ?_, ?_, ?_, ?_, ?_⟩ <;> simp [hrec', hpk, hl, mkAlloc]
      · by_cases hup : s.upperScheduled = false
        · refine ⟨_, _, _,
            by rw [if_neg (by simp [hrec']), if_neg hpk, if_neg (by simp [hlegs]),
                   if_pos (by simp [hup])]; rfl,
            ?_, ?_, ?_, ?_, ?_⟩ <;> simp [hrec', hpk, hup, mkAlloc]
        · have hup' : s.upperScheduled = true := by simpa using hup
          refine ⟨_, _, _,
            by rw [if_neg (by simp [hrec']), if_neg hpk, if_neg (by simp [hlegs]),
                   if_neg (by simp [hup'])]; rfl,
            ?_, ?_, ?_, ?_, ?_⟩ <;> simp [hrec', hpk, hup', mkAlloc]

lemma foldl_keys_mem {w : WorkoutMap} {phase : Phase} {rec : Bool} {target : Nat}
    (l : List Day) (s : AllocState) :
    ∀ k ∈ mapKeys ((l.foldl (allocStep w phase rec target) s).allocations),
      k ∈ mapKeys s.allocations ∨ k ∈ l := by
  induction l generalizing s with
  | nil => intro k hk; exact Or.inl hk
  | cons d t ih =>
    intro k hk
    rcases Nat.lt_or_ge s.sessionsScheduled target with hlt | hge
    · rcases allocStep_of_lt d hlt with ⟨a, legs, upper, heq, -⟩
      rw [List.foldl_cons, heq] at hk
      rcases ih _ k hk with hk' | hk'
      · rcases mem_mapKeys_mapSet hk' with rfl | hmem
        · exact Or.inr (List.mem_cons_self _ _)
        · exact Or.inl hmem
      · exact Or.inr (List.mem_cons_of_mem _ hk')
    · rw [List.foldl_cons, allocStep_of_ge hge] at hk
      rcases ih _ k hk with hk' | hk'
      · exact Or.inl hk'
      · exact Or.inr (List.mem_cons_of_mem _ hk')

lemma foldl_length_sessions (w : WorkoutMap) (phase : Phase) (rec : Bool)
    (target : Nat) (l : List Day) (s : AllocState)
    (hnd : l.Nodup) (hdisj : ∀ d ∈ l, d ∉ mapKeys s.allocations)
    (hlen : s.allocations.length = s.sessionsScheduled)
    (hle : s.sessionsScheduled ≤ target) :
    (l.foldl (allocStep w phase rec target) s).allocations.length =
      (l.foldl (allocStep w phase rec target) s).sessionsScheduled ∧
    (l.foldl (allocStep w phase rec target) s).sessionsScheduled =
      min target (s.sessionsScheduled + l.length) := by
  induction l generalizing s with
  | nil => exact ⟨hlen, by simpa using (by omega : s.sessionsScheduled = min target (s.sessionsScheduled + 0))⟩
  | cons d t ih =>
    rcases Nat.lt_or_ge s.sessionsScheduled target with hlt | hge
    · rcases allocStep_of_lt d hlt with ⟨a, legs, upper, heq, -⟩
      rw [List.foldl_cons, heq]
      have hfresh : d ∉ mapKeys s.allocations := hdisj d (List.mem_cons_self _ _)
      have happ : mapSet s.allocations d a = s.allocations ++ [(d, a)] :=
        mapSet_of_not_mem hfresh
      have hd : d ∉ t := (List.nodup_cons.mp hnd).1
      obtain ⟨h1, h2⟩ := ih
        { allocations := mapSet s.allocations d a, legsScheduled := legs,
          upperScheduled := upper,
          sessionsScheduled := s.sessionsScheduled + 1 }
        (List.nodup_cons.mp hnd).2
        (by
          intro d' hd' hmem
          rcases mem_mapKeys_mapSet hmem with rfl | hmem'
          · exact hd hd'
          · exact hdisj d' (List.mem_cons_of_mem _ hd') hmem')
        (by rw [happ]; simp [hlen])
        (hlt)
      refine ⟨h1, ?_⟩
      rw [h2]
      have hproj : ({ allocations := mapSet s.allocations d a, legsScheduled := legs,
                      upperScheduled := upper,
                      sessionsScheduled := s.sessionsScheduled + 1 } :
          AllocState).sessionsScheduled = s.sessionsScheduled + 1 := rfl
      rw [hproj]
      simp only [List.length_cons]
      omega
    · rw [List.foldl_cons, allocStep_of_ge hge]
      obtain ⟨h1, h2⟩ := ih s
        (List.nodup_cons.mp hnd).2
        (fun d' hd' => hdisj d' (List.mem_cons_of_mem _ hd'))
        hlen hle
      refine ⟨h1, ?_⟩
      rw [h2]
      simp only [List.length_cons]
      omega

/-- Upper bound on how many lower-body sessions can currently be in the map,
given the loop flags. -/
def lowerCap (phase : Phase) (rec : Bool) (s : AllocState) : Nat :=
  if rec then 0
  else if phase = Phase.peak then (if s.sessionsScheduled = 0 then 0 else 1)
  else (if s.legsScheduled then 1 else 0)

lemma lowerCap_le_one (phase : Phase) (rec : Bool) (s : AllocState) :
    lowerCap phase rec s ≤ 1 := by
  unfold lowerCap
  split
  · omega
  · split
    · split <;> omega
    · split <;> omega

lemma foldl_countLower {w : WorkoutMap} {phase : Phase} {rec : Bool}
    {target : Nat} (l : List Day) (s : AllocState)
    (hnd : l.Nodup) (hdisj : ∀ d ∈ l, d ∉ mapKeys s.allocations)
    (hinv : countType StrengthType.lower_body s.allocations ≤ lowerCap phase rec s) :
    countType StrengthType.lower_body
      (l.foldl (allocStep w phase rec target) s).allocations ≤ 1 := by
  induction l generalizing s with
  | nil => exact le_trans hinv (lowerCap_le_one phase rec s)
  | cons d t ih =>
    rcases Nat.lt_or_ge s.sessionsScheduled target with hlt | hge
    · rcases allocStep_of_lt d hlt with
        ⟨a, legs, upper, heq, hL, hU, hLegsSet, hLegsKeep, hUpKeep⟩
      rw [List.foldl_cons, heq]
      have hfresh : d ∉ mapKeys s.allocations := hdisj d (List.mem_cons_self _ _)
      have happ : mapSet s.allocations d a = s.allocations ++ [(d, a)] :=
        mapSet_of_not_mem hfresh
      have hd : d ∉ t := (List.nodup_cons.mp hnd).1
      apply ih
      · exact (List.nodup_cons.mp hnd).2
      · intro d' hd' hmem
        rcases mem_mapKeys_mapSet hmem with rfl | hmem'
        · exact hd hd'
        · exact hdisj d' (List.mem_cons_of_mem _ hd') hmem'
      · show countType StrengthType.lower_body (mapSet s.allocations d a) ≤ _
        rw [happ, countType_append_single]
        by_cases hty : a.type = StrengthType.lower_body
        · rcases hL hty with ⟨hrec, hcase⟩
          rcases hcase with ⟨hpk, hz⟩ | ⟨hpk, hlegs⟩
          · have hcap : lowerCap phase rec s = 0 := by
              simp [lowerCap, hrec, hpk, hz]
            have hcnt : countType StrengthType.lower_body s.allocations = 0 := by
              omega
            simp [lowerCap, hrec, hpk, hcnt, hty]
          · have hcap : lowerCap phase rec s = 0 := by
              simp [lowerCap, hrec, hpk, hlegs]
            have hcnt : countType StrengthType.lower_body s.allocations = 0 := by
              omega
            have hlegs' : legs = true := hLegsSet hrec hpk hty
            simp [lowerCap, hrec, hpk, hcnt, hty, hlegs']
        · rw [if_neg hty]
          by_cases hrec : rec = true
          · -- recovery week: the cap is zero before and after
            have hcap : lowerCap phase rec s = 0 := by simp [lowerCap, hrec]
            have hcnt : countType StrengthType.lower_body s.allocations = 0 := by
              omega
            simp only [hcnt, Nat.zero_add]
            simp [lowerCap, hrec]
          · have hrec' : rec = false := by simpa using hrec
            rcases eq_or_ne phase Phase.peak with hpk | hpk
            · have hle1 : countType StrengthType.lower_body s.allocations ≤ 1 :=
                le_trans hinv (lowerCap_le_one phase rec s)
              have hcap' : lowerCap phase rec
                  { allocations := mapSet s.allocations d a, legsScheduled := legs,
                    upperScheduled := upper,
                    sessionsScheduled := s.sessionsScheduled + 1 } = 1 := by
                simp [lowerCap, hrec', hpk]
              exact le_trans (by omega) (le_of_eq hcap'.symm)
            · by_cases hlegs : s.legsScheduled = true
              · have hlegs' : legs = true := hLegsKeep hlegs
                have hcap : lowerCap phase rec s = 1 := by
                  simp [lowerCap, hrec', hpk, hlegs]
                have hle1 : countType StrengthType.lower_body s.allocations ≤ 1 := by
                  omega
                have hcap' : lowerCap phase rec
                    { allocations := mapSet s.allocations d a, legsScheduled := legs,
                      upperScheduled := upper,
                      sessionsScheduled := s.sessionsScheduled + 1 } = 1 := by
                  simp [lowerCap, hrec', hpk, hlegs']
                exact le_trans (by omega) (le_of_eq hcap'.symm)
              · have hlegs0 : s.legsScheduled = false := by simpa using hlegs
                have hcap : lowerCap phase rec s = 0 := by
                  simp [lowerCap, hrec', hpk, hlegs0]
                have hcnt : countType StrengthType.lower_body s.allocations = 0 := by
                  omega
                have hcap' : lowerCap phase rec
                    { allocations := mapSet s.allocations d a, legsScheduled := legs,
                      upperScheduled := upper,
                      sessionsScheduled := s.sessionsScheduled + 1 } =
                    (if legs = true then 1 else 0) := by
                  simp [lowerCap, hrec', hpk]
                refine le_trans ?_ (le_of_eq hcap'.symm)
                rw [hcnt]
                split <;> omega
    · rw [List.foldl_cons, allocStep_of_ge hge]
      exact ih s (List.nodup_cons.mp hnd).2
        (fun d' hd' => hdisj d' (List.mem_cons_of_mem _ hd')) hinv

lemma foldl_countUpper {w : WorkoutMap} {phase : Phase} {rec : Bool}
    {target : Nat} (_hrec : rec = false) (_hpk : phase ≠ Phase.peak)
    (l : List Day) (s : AllocState)
    (hnd : l.Nodup) (hdisj : ∀ d ∈ l, d ∉ mapKeys s.allocations)
    (hinv : countType StrengthType.upper_body s.allocations ≤
      (if s.upperScheduled then 1 else 0)) :
    countType StrengthType.upper_body
      (l.foldl (allocStep w phase rec target) s).allocations ≤ 1 := by
  induction l generalizing s with
  | nil =>
    refine le_trans hinv ?_
    split <;> omega
  | cons d t ih =>
    rcases Nat.lt_or_ge s.sessionsScheduled target with hlt | hge
    · rcases allocStep_of_lt d hlt with
        ⟨a, legs, upper, heq, hL, hU, hLegsSet, hLegsKeep, hUpKeep⟩
      rw [List.foldl_cons, heq]
      have hfresh : d ∉ mapKeys s.allocations := hdisj d (List.mem_cons_self _ _)
      have happ : mapSet s.allocations d a = s.allocations ++ [(d, a)] :=
        mapSet_of_not_mem hfresh
      have hd : d ∉ t := (List.nodup_cons.mp hnd).1
      apply ih
      · exact (List.nodup_cons.mp hnd).2
      · intro d' hd' hmem
        rcases mem_mapKeys_mapSet hmem with rfl | hmem'
        · exact hd hd'
        · exact hdisj d' (List.mem_cons_of_mem _ hd') hmem'
      · show countType StrengthType.upper_body (mapSet s.allocations d a) ≤ _
        rw [happ, countType_append_single]
        by_cases hty : a.type = StrengthType.upper_body
        · rcases hU hty with ⟨-, -, hup, hup'⟩
          have hcnt : countType StrengthType.upper_body s.allocations = 0 := by
            rw [hup] at hinv; simpa using hinv
          simp [hcnt, hty, hup']
        · rw [if_neg hty]
          rcases Bool.eq_false_or_eq_true s.upperScheduled with hup | hup
          · have hup' : upper = true := hUpKeep hup
            rw [hup] at hinv
            simp only [hup', if_pos rfl]
            simpa using hinv
          · have hcnt : countType StrengthType.upper_body s.allocations = 0 := by
              rw [hup] at hinv; simpa using hinv
            rw [hcnt]
            split <;> omega
    · rw [List.foldl_cons, allocStep_of_ge hge]
      exact ih s (List.nodup_cons.mp hnd).2
        (fun d' hd' => hdisj d' (List.mem_cons_of_mem _ hd')) hinv

lemma nat_ceil_half (p : Nat) : Nat.ceil ((p : ℚ) / 2) = (p + 1) / 2 := by
  rcases Nat.even_or_odd p with ⟨k, hk⟩ | ⟨k, hk⟩ <;> subst hk
  · have h : ((k + k : ℕ) : ℚ) / 2 = (k : ℚ) := by push_cast; ring
    rw [h, Nat.ceil_natCast]
    omega
  · have h : ((2 * k + 1 : ℕ) : ℚ) / 2 = (k : ℚ) + 1/2 := by push_cast; ring
    rw [h]
    have h2 : Nat.ceil ((k : ℚ) + 1/2) = k + 1 := by
      rw [Nat.ceil_eq_iff (by omega)]
      constructor
      · push_cast
        norm_num
      · push_cast
        norm_num
    rw [h2]
    omega

/-- C6: the weekly strength target is 1 on a recovery week, and otherwise the
preferred count in base, max(1, preferred - 1) in build,
min(2, ceil(preferred / 2)) in peak, and 0 in taper and race. -/
theorem c6_strength_target_count (pref : Nat) :
    (∀ phase, getStrengthDaysForPhase pref phase true = 1) ∧
    getStrengthDaysForPhase pref Phase.base false = pref ∧
    getStrengthDaysForPhase pref Phase.build false = max 1 (pref - 1) ∧
    getStrengthDaysForPhase pref Phase.peak false = min 2 ((pref + 1) / 2) ∧
    getStrengthDaysForPhase pref Phase.taper false = 0 ∧
    getStrengthDaysForPhase pref Phase.race false = 0 := by
  refine ⟨fun phase => rfl, rfl, rfl, ?_, rfl, rfl⟩
  show min 2 (Nat.ceil ((pref : ℚ) / 2)) = min 2 ((pref + 1) / 2)
  rw [nat_ceil_half]

/-- C5: `canLiftOnDay` is false exactly when the next day carries a long or
progression run, and consequently `scheduleStrengthForWeek` never allocates a
strength session on a day whose following day carries a long/progression run. -/
theorem c5_no_strength_before_long_run :
    (∀ (weekWorkouts : WorkoutMap) (day : Day),
       canLiftOnDay day weekWorkouts = false ↔
         ∃ t, weekWorkouts (getNextDay day) = some t ∧ isLongRun t = true) ∧
    (∀ (weekWorkouts : WorkoutMap) (preferences : StrengthPreferences)
       (phase : Phase) (isRecoveryWeek : Bool) (day : Day) (a : StrengthAllocation),
       (day, a) ∈ scheduleStrengthForWeek weekWorkouts preferences phase isRecoveryWeek →
       ∀ t, weekWorkouts (getNextDay day) = some t → isLongRun t = false) := by
  constructor
  · intro w day
    simp only [canLiftOnDay]
    cases h : w (getNextDay day) with
    | none => simp [h]
    | some t =>
      by_cases hl : isLongRun t = true
      · simp [hl]
      · have hl' : isLongRun t = false := by simpa using hl
        simp [hl']
  · intro w prefs phase rec day a hmem t hnext
    by_contra hT
    have hlong : isLongRun t = true := by simpa using hT
    have hfalse : canLiftOnDay day w = false := by
      simp only [canLiftOnDay]
      rw [hnext]
      simp [hlong]
    unfold scheduleStrengthForWeek at hmem
    by_cases h0 : getStrengthDaysForPhase prefs.daysPerWeek phase rec = 0
    · rw [if_pos h0] at hmem
      simp at hmem
    · rw [if_neg h0] at hmem
      have hkey : day ∈ mapKeys
          ((((DAYS_IN_ORDER.filter (fun d => canLiftOnDay d w)).insertionSort
              (fun a b => prefRank prefs.preferredDays a ≤ prefRank prefs.preferredDays b)).foldl
            (allocStep w phase rec (getStrengthDaysForPhase prefs.daysPerWeek phase rec))
            { allocations := [], legsScheduled := false, upperScheduled := false,
              sessionsScheduled := 0 }).allocations) := by
        exact List.mem_map_of_mem Prod.fst hmem
      rcases foldl_keys_mem _ _ day hkey with hk | hk
      · simp [mapKeys] at hk
      · have hav : day ∈ DAYS_IN_ORDER.filter (fun d => canLiftOnDay d w) :=
          (List.perm_insertionSort _ _).mem_iff.mp hk
        have hcan := (List.mem_filter.mp hav).2
        rw [hfalse] at hcan
        exact Bool.false_ne_true hcan

/-- C7: `scheduleStrengthForWeek` is a total function returning exactly
min(target count, number of days passing `canLiftOnDay`) allocations. -/
theorem c7_strength_alloc_count (weekWorkouts : WorkoutMap)
    (preferences : StrengthPreferences) (phase : Phase) (isRecoveryWeek : Bool) :
    (scheduleStrengthForWeek weekWorkouts preferences phase isRecoveryWeek).length =
      min (getStrengthDaysForPhase preferences.daysPerWeek phase isRecoveryWeek)
          ((DAYS_IN_ORDER.filter (fun d => canLiftOnDay d weekWorkouts)).length) := by
  unfold scheduleStrengthForWeek
  by_cases h0 : getStrengthDaysForPhase preferences.daysPerWeek phase isRecoveryWeek = 0
  · rw [if_pos h0, h0]
    simp
  · rw [if_neg h0]
    have hperm := List.perm_insertionSort
      (fun a b => prefRank preferences.preferredDays a ≤ prefRank preferences.preferredDays b)
      (DAYS_IN_ORDER.filter (fun d => canLiftOnDay d weekWorkouts))
    have hndF : (DAYS_IN_ORDER.filter (fun d => canLiftOnDay d weekWorkouts)).Nodup :=
      List.Nodup.filter _ (by decide)
    have hnd := hperm.symm.nodup hndF
    obtain ⟨h1, h2⟩ := foldl_length_sessions
      weekWorkouts phase isRecoveryWeek
      (getStrengthDaysForPhase preferences.daysPerWeek phase isRecoveryWeek)
      _ { allocations := [], legsScheduled := false, upperScheduled := false,
          sessionsScheduled := 0 }
      hnd (by intro d hd hmem; simp [mapKeys] at hmem) rfl (Nat.zero_le _)
    rw [h1, h2, hperm.length_eq]
    simp

/-- C10: at most one lower-body session per week; outside recovery weeks and
the peak phase also at most one upper-body session. -/
theorem c10_at_most_one_lower_body (weekWorkouts : WorkoutMap)
    (preferences : StrengthPreferences) (phase : Phase) (isRecoveryWeek : Bool) :
    countType StrengthType.lower_body
      (scheduleStrengthForWeek weekWorkouts preferences phase isRecoveryWeek) ≤ 1 ∧
    (isRecoveryWeek = false → phase ≠ Phase.peak →
      countType StrengthType.upper_body
        (scheduleStrengthForWeek weekWorkouts preferences phase isRecoveryWeek) ≤ 1) := by
  unfold scheduleStrengthForWeek
  by_cases h0 : getStrengthDaysForPhase preferences.daysPerWeek phase isRecoveryWeek = 0
  · rw [if_pos h0]
    exact ⟨by simp [countType], fun _ _ => by simp [countType]⟩
  · rw [if_neg h0]
    have hperm := List.perm_insertionSort
      (fun a b => prefRank preferences.preferredDays a ≤ prefRank preferences.preferredDays b)
      (DAYS_IN_ORDER.filter (fun d => canLiftOnDay d weekWorkouts))
    have hndF : (DAYS_IN_ORDER.filter (fun d => canLiftOnDay d weekWorkouts)).Nodup :=
      List.Nodup.filter _ (by decide)
    have hnd := hperm.symm.nodup hndF
    constructor
    · exact foldl_countLower _ _ hnd
        (by intro d hd hmem; simp [mapKeys] at hmem)
        (by simp [countType])
    · intro hrec hpk
      exact foldl_countUpper hrec hpk _ _ hnd
        (by intro d hd hmem; simp [mapKeys] at hmem)
        (by simp [countType])

/-- Week map of the C3 failing input: a tempo run on Wednesday, nothing else. -/
def wC3 : WorkoutMap :=
  fun d => if d = Day.wednesday then some RunType.tempo else none

/-- Strength preferences of the C3 failing input. -/
def prefsC3 : StrengthPreferences :=
  { daysPerWeek := 1, preferredDays := [Day.monday], avoidBeforeLongRun := true }

/-- C3: the code evaluated at the failing input.  Wednesday — the day after
next from Monday — carries a speed-type run (tempo), yet `canDoHeavyLegs` on
Monday returns true (the fetched day-after-next workout is never tested), and
`scheduleStrengthForWeek` places the lower-body session on Monday, violating
the claimed 48-hour buffer two days before the tempo run. -/
theorem c3_heavy_legs_day_after_next_bug :
    getNextDay (getNextDay Day.monday) = Day.wednesday ∧
    wC3 Day.wednesday = some RunType.tempo ∧
    isSpeedWorkout RunType.tempo = true ∧
    canDoHeavyLegs Day.monday wC3 = true ∧
    scheduleStrengthForWeek wC3 prefsC3 Phase.base false =
      [(Day.monday,
        { day := Day.monday, type := StrengthType.lower_body,
          timing := ("Any time"), duration := 40, notes := none })] := by
  decide

/-- Concrete week map for the witnesses: an easy run every day. -/
def wWit : WorkoutMap := fun _ => some RunType.easy

/-- Concrete strength preferences for the witnesses. -/
def prefsWit : StrengthPreferences :=
  { daysPerWeek := 1, preferredDays := [], avoidBeforeLongRun := true }

theorem c5_no_strength_before_long_run_witness : isLongRun RunType.easy = false :=
  c5_no_strength_before_long_run.2 wWit prefsWit Phase.base false Day.monday
    { day := Day.monday, type := StrengthType.lower_body, timing := ("After run"),
      duration := 40, notes := none }
    (by decide) RunType.easy (by decide)

theorem c10_at_most_one_lower_body_witness :
    countType StrengthType.lower_body
      (scheduleStrengthForWeek wWit prefsWit Phase.base false) ≤ 1 ∧
    countType StrengthType.upper_body
      (scheduleStrengthForWeek wWit prefsWit Phase.base false) ≤ 1 :=
  ⟨(c10_at_most_one_lower_body wWit prefsWit Phase.base false).1,
   (c10_at_most_one_lower_body wWit prefsWit Phase.base false).2 rfl (by decide)⟩

/-! ### Blocked-date resolution (`blocked-dates-parser.ts`, `date-math.ts`) -/

/-- Code-unit comparison of two character lists (JS string `<=`). -/
def strLeAux : List Char → List Char → Bool
  | [], _ => true
  | _ :: _, [] => false
  | a :: as, b :: bs =>
    if a.val < b.val then true
    else if b.val < a.val then false
    else strLeAux as bs

/-- JS `a <= b` on strings, code-unit lexicographic. -/
def strLe (a b : String) : Bool := strLeAux a.data b.data

/-- `BlockedDateRange` from `src/generator/types/intake.ts` lines 82-86.
The `end` field is a Lean keyword, so it is called `endDate` here. -/
structure BlockedDateRange where
  start : String
  endDate : String
  reason : Option String := none
deriving DecidableEq, Repr

/-- Result shape of `isDateBlocked`. -/
structure BlockVerdict where
  blocked : Bool
  reason : Option String := none
deriving DecidableEq, Repr

/-- `isDateBlocked` from the blocked-dates parser (`normalize.ts` lines
428-442).  The source first normalizes its argument through
`new Date(date).toISOString().split('T')[0]`, which is the identity on a
valid `YYYY-MM-DD` string; the embedding therefore takes the canonical
string directly.  The scan is linear and the first containing range wins. -/
def isDateBlocked (date : String) : List BlockedDateRange → BlockVerdict
  | [] => { blocked := false }
  | range :: rest =>
    if strLe range.start date && strLe date range.endDate then
      { blocked := true, reason := range.reason }
    else isDateBlocked date rest

/-- Containment of a date in a range, as compared by `isDateBlocked`. -/
def rangeContains (range : BlockedDateRange) (date : String) : Bool :=
  strLe range.start date && strLe date range.endDate

/-- C8: `isDateBlocked` returns `blocked = false` when no range contains the
date, and otherwise `blocked = true` with the reason of the first containing
range in list order. -/
theorem c8_first_matching_range_wins (date : String) (ranges : List BlockedDateRange) :
    ((∀ r ∈ ranges, rangeContains r date = false) →
       isDateBlocked date ranges = { blocked := false, reason := none }) ∧
    (∀ (pre post : List BlockedDateRange) (r : BlockedDateRange),
       ranges = pre ++ r :: post →
       (∀ r2 ∈ pre, rangeContains r2 date = false) →
       rangeContains r date = true →
       isDateBlocked date ranges = { blocked := true, reason := r.reason }) := by
  constructor
  · intro hall
    induction ranges with
    | nil => rfl
    | cons r rest ih =>
      have hr : rangeContains r date = false := hall r (List.mem_cons_self _ _)
      show isDateBlocked date (r :: rest) = _
      unfold isDateBlocked
      rw [show (strLe r.start date && strLe date r.endDate) = false from hr]
      simp only [Bool.false_eq_true, if_false]
      exact ih (fun r2 h2 => hall r2 (List.mem_cons_of_mem _ h2))
  · intro pre post r hsplit hpre hr
    subst hsplit
    induction pre with
    | nil =>
      show isDateBlocked date (r :: post) = _
      unfold isDateBlocked
      rw [show (strLe r.start date && strLe date r.endDate) = true from hr]
      simp
    | cons r2 rest ih =>
      have h2 : rangeContains r2 date = false := hpre r2 (List.mem_cons_self _ _)
      show isDateBlocked date (r2 :: (rest ++ r :: post)) = _
      unfold isDateBlocked
      rw [show (strLe r2.start date && strLe date r2.endDate) = false from h2]
      simp only [Bool.false_eq_true, if_false]
      exact ih (fun r3 h3 => hpre r3 (List.mem_cons_of_mem _ h3))

/-- Witness ranges for C8: two overlapping ranges containing 2026-02-16. -/
def rangesW : List BlockedDateRange :=
  [{ start := ("2026-02-15"), endDate := ("2026-02-22"), reason := some ("Work travel") },
   { start := ("2026-02-10"), endDate := ("2026-02-20"), reason := some ("Second range") }]

theorem c8_first_matching_range_wins_witness :
    isDateBlocked ("2026-02-16") rangesW =
      { blocked := true, reason := some ("Work travel") } :=
  (c8_first_matching_range_wins ("2026-02-16") rangesW).2 []
    [{ start := ("2026-02-10"), endDate := ("2026-02-20"), reason := some ("Second range") }]
    { start := ("2026-02-15"), endDate := ("2026-02-22"), reason := some ("Work travel") }
    rfl (by simp) (by decide)

/-! ### Dates (`date-math.ts`), modelled as days since 1970-01-01 -/

/-- Convert an epoch-day count to `(year, month, day)` (proleptic Gregorian,
standard civil-from-days conversion, valid for all dates from 1970 on). -/
def civilFromDays (z0 : Nat) : Nat × Nat × Nat :=
  let z := z0 + 719468
  let era := z / 146097
  let doe := z % 146097
  let yoe := (doe - doe / 1460 + doe / 36524 - doe / 146096) / 365
  let doy := doe - (365 * yoe + yoe / 4 - yoe / 100)
  let mp := (5 * doy + 2) / 153
  let d := doy - (153 * mp + 2) / 5 + 1
  let m := if mp < 10 then mp + 3 else mp - 9
  let y := yoe + era * 400
  (if m ≤ 2 then y + 1 else y, m, d)

/-- Two-digit zero padding. -/
def pad2 (n : Nat) : String :=
  if n < 10 then "0" ++ toString n else toString n

/-- `formatDateISO` from `date-math.ts`: format as `YYYY-MM-DD`. -/
def formatDateISO (date : Nat) : String :=
  let c := civilFromDays date
  toString c.1 ++ "-" ++ pad2 c.2.1 ++ "-" ++ pad2 c.2.2

/-- `dayOffsets` inside `getDateForDay` (`date-math.ts`). -/
def dayOffsets : Day → Nat
  | Day.monday => 0
  | Day.tuesday => 1
  | Day.wednesday => 2
  | Day.thursday => 3
  | Day.friday => 4
  | Day.saturday => 5
  | Day.sunday => 6

/-- `getDateForDay` from `date-math.ts` (`addDays(weekStart, offset)`). -/
def getDateForDay (weekStart : Nat) (day : Day) : Nat :=
  weekStart + dayOffsets day

/-- `isDayBlocked` from `week-generator.ts` lines 69-76. -/
def isDayBlocked (day : Day) (weekStart : Nat)
    (blockedDates : List BlockedDateRange) : BlockVerdict :=
  isDateBlocked (formatDateISO (getDateForDay weekStart day)) blockedDates

/-! ### Workout generation (`workout-generator.ts`)

The `structure` (warmup/main/cooldown breakdown) and `caloriesBurned` fields
of `RunningWorkout` are not modelled: no claim refers to them.  Numeral
formatting inside description strings uses the rational printer, which can
differ from the JS decimal printer; no claim inspects description text. -/

/-- `PaceRange` from `plan.ts` (min/max as `MM:SS` strings). -/
structure PaceRange where
  min : String
  max : String
  description : String := ""
deriving DecidableEq, Repr

/-- `PaceZones` from `plan.ts`. -/
structure PaceZones where
  easy : PaceRange
  marathon : PaceRange
  tempo : PaceRange
  fiveK : PaceRange
  interval : PaceRange
  recovery : PaceRange
deriving DecidableEq, Repr

/-- `paceToSeconds` from `pace-zones.ts`: parse `MM:SS` to seconds, 0 when the
string does not split into exactly two parts.  (`parseInt` on a non-numeric
part would yield NaN in JS; the embedding assumes numeric parts, which all
call sites provide.) -/
def paceToSeconds (pace : String) : Nat :=
  match (pace.splitOn ":").map (fun p => p.toNat?.getD 0) with
  | [a, b] => a * 60 + b
  | _ => 0

/-- `RunningWorkout` from `plan.ts` (modelled fields only). -/
structure RunningWorkout where
  type : RunType
  title : String
  description : Option String := none
  totalDistance : Option ℚ := none
  estimatedDuration : Option ℤ := none
  hrZone : Option String := none
  notes : Option String := none
deriving DecidableEq, Repr

/-- JS `x || dflt` for an optional number: `undefined` and `0` are falsy. -/
def orDefault (x : Option ℚ) (dflt : ℚ) : ℚ :=
  match x with
  | some v => if v = 0 then dflt else v
  | none => dflt

/-- JS `s || dflt` for an optional string: `undefined` and `""` are falsy. -/
def orText (x : Option String) (dflt : String) : String :=
  match x with
  | some v => if v = "" then dflt else v
  | none => dflt

/-- JS template interpolation of a possibly-undefined string. -/
def optText (x : Option String) : String := x.getD ("undefined")

/-- `createRestDay` from `workout-generator.ts`. -/
def createRestDay (notes : Option String) : RunningWorkout :=
  { type := RunType.rest, title := ("Rest Day"), notes := notes }

/-- `createEasyRun` from `workout-generator.ts`. -/
def createEasyRun (distance : ℚ) (paceZones : PaceZones)
    (title : String := "Easy Run") : RunningWorkout :=
  let easyPaceMin := (paceToSeconds paceZones.easy.min : ℚ)
  let estimatedDuration := jsRound (distance * easyPaceMin / 60)
  { type := RunType.easy, title := title, totalDistance := some distance,
    estimatedDuration := some estimatedDuration, hrZone := some ("Zone 2") }

/-- Options bag of `createLongRun`. -/
structure LongRunOptions where
  withProgression : Bool := false
  withMarathonPaceFinish : Bool := false
  title : Option String := none
  description : Option String := none

/-- `createLongRun` from `workout-generator.ts`. -/
def createLongRun (distance : ℚ) (paceZones : PaceZones) (phase : Phase)
    (options : LongRunOptions := {}) : RunningWorkout :=
  let easyPaceMin := (paceToSeconds paceZones.easy.min : ℚ)
  let estimatedDuration := jsRound (distance * easyPaceMin / 60)
  let workout : RunningWorkout :=
    { type := RunType.long, title := orText options.title ("Long Run"),
      totalDistance := some distance, estimatedDuration := some estimatedDuration,
      hrZone := some ("Zone 2") }
  let workout :=
    if options.withProgression && !(phase = Phase.base) then
      let easyMiles := (jsRound (distance * (67/100)) : ℚ)
      let moderateMiles := (jsRound (distance * (22/100)) : ℚ)
      let mpMiles := distance - easyMiles - moderateMiles
      { workout with
          type := RunType.progression,
          description := some (toString distance ++ "mi total: " ++ toString easyMiles ++
            "mi easy, " ++ toString moderateMiles ++ "mi moderate, " ++
            toString mpMiles ++ "mi at marathon pace"),
          hrZone := some ("Zone 2, then 3, then MP") }
    else workout
  let workout :=
    if options.withMarathonPaceFinish && (phase = Phase.peak || phase = Phase.build) then
      let easyMiles := (jsRound (distance * (6/10)) : ℚ)
      let mpMiles := distance - easyMiles
      { workout with
          type := RunType.race_pace,
          description := some (toString distance ++ "mi total: " ++ toString easyMiles ++
            "mi easy, then " ++ toString mpMiles ++
            "mi at marathon pace. Practice race fueling."),
          hrZone := some ("Zone 2, then MP") }
    else workout
  match options.description with
  | some d => { workout with description := some d }
  | none => workout

/-- `createTempoRun` from `workout-generator.ts`. -/
def createTempoRun (tempoMiles : ℚ) (paceZones : PaceZones)
    (reduced : Bool := false) : RunningWorkout :=
  let warmupMiles : ℚ := if reduced then 1 else 3/2
  let cooldownMiles : ℚ := if reduced then 1 else 3/2
  let totalDistance := warmupMiles + tempoMiles + cooldownMiles
  let tempoPaceMin := (paceToSeconds paceZones.tempo.min : ℚ)
  let easyPaceMin := (paceToSeconds paceZones.easy.min : ℚ)
  let tempoTime := tempoMiles * tempoPaceMin / 60
  let warmupCooldownTime := (warmupMiles + cooldownMiles) * easyPaceMin / 60
  let estimatedDuration := jsRound (tempoTime + warmupCooldownTime)
  { type := RunType.tempo,
    title := if reduced then ("Short Tempo") else ("Tempo Run"),
    description := some (toString warmupMiles ++ "mi warmup, " ++ toString tempoMiles ++
      "mi tempo, " ++ toString cooldownMiles ++ "mi cooldown"),
    totalDistance := some totalDistance,
    estimatedDuration := some estimatedDuration,
    hrZone := some ("Zone 3-4") }

/-- Interval flavours accepted by `createIntervals`. -/
inductive IntervalKind where
  | m400 | m800 | m1000 | m1200 | m1600 | strides
deriving DecidableEq, Repr

/-- Display name of an interval flavour (`'400m'`, ..., `'strides'`). -/
def IntervalKind.text : IntervalKind → String
  | IntervalKind.m400 => "400m"
  | IntervalKind.m800 => "800m"
  | IntervalKind.m1000 => "1000m"
  | IntervalKind.m1200 => "1200m"
  | IntervalKind.m1600 => "1600m"
  | IntervalKind.strides => "strides"

/-- `intervalMeters` table inside `createIntervals`. -/
def intervalMeters : IntervalKind → Nat
  | IntervalKind.m400 => 400
  | IntervalKind.m800 => 800
  | IntervalKind.m1000 => 1000
  | IntervalKind.m1200 => 1200
  | IntervalKind.m1600 => 1600
  | IntervalKind.strides => 100

/-- `createIntervals` from `workout-generator.ts`.  All call sites pass
`repeats ≥ 1`, so the truncated `repeats - 1` matches JS arithmetic. -/
def createIntervals (intervalType : IntervalKind) (repeats : Nat)
    (paceZones : PaceZones) : RunningWorkout :=
  let warmupMiles : ℚ := if intervalType = IntervalKind.strides then 0 else 2
  let cooldownMiles : ℚ := if intervalType = IntervalKind.strides then 0 else 1
  let meters := intervalMeters intervalType
  let intervalMiles : ℚ := ((meters : ℚ) / (160934/100)) * repeats
  let recoveryMiles : ℚ :=
    if intervalType = IntervalKind.strides then 0
    else ((meters : ℚ) / 2 / (160934/100)) * (repeats - 1 : Nat)
  let totalDistance := warmupMiles + intervalMiles + recoveryMiles + cooldownMiles
  let baseMiles : ℚ := if intervalType = IntervalKind.strides then 3 else 0
  let easyPaceMin := (paceToSeconds paceZones.easy.min : ℚ)
  let intervalPaceMin := (paceToSeconds paceZones.interval.min : ℚ)
  let estimatedDuration := jsRound
    ((warmupMiles + cooldownMiles + baseMiles) * easyPaceMin / 60 +
     intervalMiles * intervalPaceMin / 60 + ((repeats - 1 : Nat) : ℚ) * (3/2))
  if intervalType = IntervalKind.strides then
    { type := RunType.intervals, title := ("Strides"),
      description := some ("Easy run with " ++ toString repeats ++ "x100m strides"),
      totalDistance := some (totalDistance + baseMiles),
      estimatedDuration := some estimatedDuration,
      hrZone := some ("Zone 2 (Zone 4-5 strides)") }
  else
    let useFiveK := intervalType = IntervalKind.m1600 ∨ intervalType = IntervalKind.m1200
    -- targetPace (fiveK vs interval zone) only feeds the unmodelled
    -- structure.main.work.pace field
    let _targetPace := if useFiveK then paceZones.fiveK else paceZones.interval
    { type := RunType.intervals,
      title := intervalType.text ++ " Repeats",
      description := some (toString warmupMiles ++ "mi warmup, " ++ toString repeats ++
        "x" ++ intervalType.text ++ " at " ++
        (if useFiveK then "5K" else "interval") ++ " pace with " ++
        toString (meters / 2) ++ "m jog recovery, " ++ toString cooldownMiles ++
        "mi cooldown"),
      totalDistance := some ((jsRound (totalDistance * 10) : ℚ) / 10),
      estimatedDuration := some estimatedDuration,
      hrZone := some ("Zone 4-5 during intervals") }

/-- `createHillRepeats` from `workout-generator.ts`. -/
def createHillRepeats (repeats : Nat) (durationSeconds : ℚ)
    (paceZones : PaceZones) : RunningWorkout :=
  let warmupMiles : ℚ := 3/2
  let cooldownMiles : ℚ := 3/2
  let hillMiles := ((repeats : ℚ) * durationSeconds / 60) * (2/10)
  let totalDistance := warmupMiles + hillMiles + cooldownMiles
  let easyPaceMin := (paceToSeconds paceZones.easy.min : ℚ)
  let estimatedDuration := jsRound
    ((warmupMiles + cooldownMiles) * easyPaceMin / 60 +
     (repeats : ℚ) * (durationSeconds / 60 + 3/2))
  { type := RunType.hill_repeats, title := ("Hill Repeats"),
    description := some (toString warmupMiles ++ "mi warmup, " ++ toString repeats ++
      "x" ++ toString durationSeconds ++ "sec hill at hard effort, jog down recovery, " ++
      toString cooldownMiles ++ "mi cooldown"),
    totalDistance := some ((jsRound (totalDistance * 10) : ℚ) / 10),
    estimatedDuration := some estimatedDuration,
    hrZone := some ("Zone 4-5 on hills") }

/-- `createFartlek` from `workout-generator.ts`. -/
def createFartlek (totalMiles : ℚ) (pickups : Nat) (pickupDurationSeconds : ℚ)
    (paceZones : PaceZones) : RunningWorkout :=
  let easyPaceMin := (paceToSeconds paceZones.easy.min : ℚ)
  let estimatedDuration := jsRound (totalMiles * easyPaceMin / 60)
  { type := RunType.fartlek, title := ("Fartlek"),
    description := some ("Easy run with " ++ toString pickups ++ "x" ++
      toString (jsRound (pickupDurationSeconds / 60)) ++
      "min pickups at tempo pace, " ++ toString (jsRound (pickupDurationSeconds / 60)) ++
      "min easy between"),
    totalDistance := some totalMiles,
    estimatedDuration := some estimatedDuration,
    hrZone := some ("Zone 2-3") }

/-- `createCrossTraining` from `workout-generator.ts`. -/
def createCrossTraining (duration : ℤ := 40) : RunningWorkout :=
  { type := RunType.cross_training, title := ("Cross Training"),
    estimatedDuration := some duration }

/-- `createRecoveryRun` from `workout-generator.ts`. -/
def createRecoveryRun (distance : ℚ) (paceZones : PaceZones) : RunningWorkout :=
  let recoveryPaceMin := (paceToSeconds paceZones.recovery.min : ℚ)
  let estimatedDuration := jsRound (distance * recoveryPaceMin / 60)
  { type := RunType.recovery, title := ("Recovery Run"),
    description := some ("Very easy after long weekend"),
    totalDistance := some distance,
    estimatedDuration := some estimatedDuration,
    hrZone := some ("Zone 1-2") }

/-- `WorkoutParams` from `workout-generator.ts`. -/
structure WorkoutParams where
  type : RunType
  distance : Option ℚ := none
  phase : Phase
  isRecovery : Bool
  paceZones : PaceZones
  level : PlanLevel

/-- `generateWorkout` from `workout-generator.ts` lines 339-390.  All eleven
`RunType` values are covered, so the JS `default` branch is unreachable. -/
def generateWorkout (params : WorkoutParams) : RunningWorkout :=
  match params.type with
  | RunType.rest => createRestDay none
  | RunType.easy => createEasyRun (orDefault params.distance 4) params.paceZones
  | RunType.long =>
    let longDistance := orDefault params.distance 12
    let useProgression := !(params.phase = Phase.base) && !params.isRecovery
    createLongRun longDistance params.paceZones params.phase
      { withProgression := useProgression && (params.phase = Phase.build) }
  | RunType.tempo =>
    let tempoMiles : ℚ :=
      if params.isRecovery then 2 else (if params.phase = Phase.base then 3 else 4)
    createTempoRun tempoMiles params.paceZones params.isRecovery
  | RunType.intervals =>
    let repeats := if params.isRecovery then 6 else 8
    createIntervals IntervalKind.m800 repeats params.paceZones
  | RunType.hill_repeats =>
    let hillRepeats := if params.isRecovery then 4 else 6
    createHillRepeats hillRepeats 60 params.paceZones
  | RunType.fartlek => createFartlek (orDefault params.distance 6) 8 60 params.paceZones
  | RunType.cross_training => createCrossTraining
  | RunType.recovery => createRecoveryRun (orDefault params.distance 4) params.paceZones
  | RunType.progression =>
    createLongRun (orDefault params.distance 16) params.paceZones params.phase
      { withProgression := true }
  | RunType.race_pace =>
    createLongRun (orDefault params.distance 16) params.paceZones params.phase
      { withMarathonPaceFinish := true }

/-! ### Weekly running schedule (`week-generator.ts`) -/

/-- One entry of `qualityDays` in a `WeekTemplate`. -/
structure QualitySlot where
  day : Day
  type : RunType
  distance : Option ℚ := none

/-- `WeekTemplate` from `week-generator.ts` lines 32-45. -/
structure WeekTemplate where
  focus : String
  longRunDay : Day
  longRunDistance : ℚ
  qualityDays : List QualitySlot
  easyRunDays : List Day
  restDays : List Day
  crossTrainingDay : Option Day := none
  totalMileage : ℚ

/-- `getDefaultEasyDistance` from `week-generator.ts` lines 50-64. -/
def getDefaultEasyDistance (level : PlanLevel) (phase : Phase) : ℚ :=
  let base : ℚ :=
    match level with
    | PlanLevel.conservative => 3
    | PlanLevel.moderate => 4
    | PlanLevel.ambitious => 5
  if phase = Phase.peak then base + 1
  else if phase = Phase.taper then base - 1
  else base

/-- The running schedule map (`Map<DayOfWeek, RunningWorkout>`). -/
def Schedule : Type := List (Day × RunningWorkout)

/-- `generateRunningSchedule` from `week-generator.ts` lines 81-190. -/
def generateRunningSchedule (template : WeekTemplate) (paceZones : PaceZones)
    (phase : Phase) (isRecovery : Bool) (level : PlanLevel)
    (blockedDates : List BlockedDateRange) (weekStart : Nat) : Schedule :=
  -- Step A: long run, with the Saturday/Sunday alternate when blocked
  let longRunBlocked := isDayBlocked template.longRunDay weekStart blockedDates
  let adjustedTemplate :=
    if longRunBlocked.blocked then
      let altDay := if template.longRunDay = Day.sunday then Day.saturday else Day.sunday
      let altBlocked := isDayBlocked altDay weekStart blockedDates
      if !altBlocked.blocked then { template with longRunDay := altDay }
      else { template with longRunDistance := 0 }
    else template
  let schedule : Schedule :=
    if adjustedTemplate.longRunDistance > 0 then
      let longRun := generateWorkout
        { type := RunType.long, distance := some adjustedTemplate.longRunDistance,
          phase := phase, isRecovery := isRecovery, paceZones := paceZones,
          level := level }
      let longRun :=
        if isRecovery then { longRun with title := ("Reduced Long Run") } else longRun
      mapSet [] adjustedTemplate.longRunDay longRun
    else
      mapSet [] template.longRunDay (createRestDay longRunBlocked.reason)
  -- Step B: quality workouts (blocked days downgrade to a shorter easy run)
  let schedule := template.qualityDays.foldl (fun schedule quality =>
      let blocked := isDayBlocked quality.day weekStart blockedDates
      if blocked.blocked then
        let easyRun := createEasyRun (getDefaultEasyDistance level phase - 1) paceZones
          ("Easy Run (adjusted: " ++ optText blocked.reason ++ ")")
        mapSet schedule quality.day easyRun
      else
        mapSet schedule quality.day (generateWorkout
          { type := quality.type, distance := quality.distance, phase := phase,
            isRecovery := isRecovery, paceZones := paceZones, level := level })
    ) schedule
  -- Step C: easy runs on not-yet-scheduled days
  let schedule := template.easyRunDays.foldl (fun schedule day =>
      if mapHas schedule day then schedule
      else
        let blocked := isDayBlocked day weekStart blockedDates
        if blocked.blocked then mapSet schedule day (createRestDay blocked.reason)
        else mapSet schedule day
          (createEasyRun (getDefaultEasyDistance level phase) paceZones)
    ) schedule
  -- Step D: remaining rest days
  let schedule := template.restDays.foldl (fun schedule day =>
      if mapHas schedule day then schedule
      else mapSet schedule day (createRestDay none)) schedule
  -- Step E: cross training
  match template.crossTrainingDay with
  | some ctDay =>
    if mapHas schedule ctDay then schedule
    else
      let blocked := isDayBlocked ctDay weekStart blockedDates
      if blocked.blocked then mapSet schedule ctDay (createRestDay blocked.reason)
      else mapSet schedule ctDay createCrossTraining
  | none => schedule

/-- Result of `calculateWeekTotals`. -/
structure WeekTotals where
  totalMileage : ℚ
  totalHours : ℚ
deriving DecidableEq, Repr

/-- `Math.round(x * 10) / 10`: round to one decimal. -/
def jsRound1 (x : ℚ) : ℚ := (jsRound (x * 10) : ℚ) / 10

/-- Loop body of `calculateWeekTotals`: accumulate distance and minutes,
skipping falsy (`undefined` or `0`) fields as the JS truthiness tests do. -/
def weekTotalsStep (acc : ℚ × ℤ) (entry : Day × RunningWorkout) : ℚ × ℤ :=
  let workout := entry.2
  let acc1 :=
    match workout.totalDistance with
    | some d => if d ≠ 0 then (acc.1 + d, acc.2) else acc
    | none => acc
  match workout.estimatedDuration with
  | some m => if m ≠ 0 then (acc1.1, acc1.2 + m) else acc1
  | none => acc1

/-- `calculateWeekTotals` from `week-generator.ts` lines 195-219. -/
def calculateWeekTotals (runningSchedule : Schedule) (strengthDays : Nat)
    (_paceZones : PaceZones) : WeekTotals :=
  let totals := runningSchedule.foldl weekTotalsStep (0, 0)
  let totalMinutes := totals.2 + strengthDays * 30
  { totalMileage := jsRound1 totals.1,
    totalHours := jsRound1 ((totalMinutes : ℚ) / 60) }

/-- Sum of the workouts' distances (absent distance counts as 0). -/
def sumDistances (workouts : List RunningWorkout) : ℚ :=
  (workouts.map (fun w => w.totalDistance.getD 0)).sum

/-- Sum of the workouts' estimated minutes (absent duration counts as 0). -/
def sumMinutes (workouts : List RunningWorkout) : ℤ :=
  (workouts.map (fun w => w.estimatedDuration.getD 0)).sum

lemma weekTotalsStep_eq (acc : ℚ × ℤ) (entry : Day × RunningWorkout) :
    weekTotalsStep acc entry =
      (acc.1 + entry.2.totalDistance.getD 0, acc.2 + entry.2.estimatedDuration.getD 0) := by
  unfold weekTotalsStep
  cases htd : entry.2.totalDistance with
  | none =>
    cases hed : entry.2.estimatedDuration with
    | none => simp [htd, hed]
    | some m => by_cases hm : m = 0 <;> simp [htd, hed, hm]
  | some d =>
    cases hed : entry.2.estimatedDuration with
    | none => by_cases hd : d = 0 <;> simp [htd, hed, hd]
    | some m =>
      by_cases hd : d = 0 <;> by_cases hm : m = 0 <;> simp [htd, hed, hd, hm]

lemma weekTotals_foldl (l : Schedule) :
    ∀ p : ℚ × ℤ,
      l.foldl weekTotalsStep p =
        (p.1 + sumDistances (l.map Prod.snd), p.2 + sumMinutes (l.map Prod.snd)) := by
  induction l with
  | nil => intro p; simp [sumDistances, sumMinutes]
  | cons e t ih =>
    intro p
    rw [List.foldl_cons, weekTotalsStep_eq, ih]
    simp only [List.map_cons, sumDistances, sumMinutes, List.sum_cons]
    refine Prod.ext ?_ ?_ <;> simp <;> ring

/-- C9: the week totals are the distance sum rounded to one decimal, and the
minute sum plus 30 minutes per strength session, divided by 60 and rounded to
one decimal. -/
theorem c9_week_totals (runningSchedule : Schedule) (strengthDays : Nat)
    (paceZones : PaceZones) :
    calculateWeekTotals runningSchedule strengthDays paceZones =
      { totalMileage := jsRound1 (sumDistances (runningSchedule.map Prod.snd)),
        totalHours := jsRound1
          (((sumMinutes (runningSchedule.map Prod.snd) + strengthDays * 30 : ℤ) : ℚ) / 60) } := by
  unfold calculateWeekTotals
  rw [weekTotals_foldl]
  simp

/-! ### Concrete failing inputs for the schedule-coverage claims -/

example : formatDateISO 0 = "1970-01-01" := by decide

example : formatDateISO 20465 = "2026-01-12" := by decide

/-- Concrete pace zones used by the failing inputs. -/
def pzFix : PaceZones :=
  { easy := { min := ("10:00"), max := ("11:00") },
    marathon := { min := ("8:45"), max := ("9:10") },
    tempo := { min := ("8:15"), max := ("8:30") },
    fiveK := { min := ("7:30"), max := ("8:00") },
    interval := { min := ("7:00"), max := ("7:30") },
    recovery := { min := ("11:30"), max := ("12:30") } }

/-- Monday 2026-01-12 as an epoch-day count. -/
def weekStartFix : Nat := 20465

/-- The default week template produced by `createWeekTemplate`
(`week-generator.ts` lines 392-401, moderate level, base phase): Sunday long
run, Tuesday quality, easy Monday/Wednesday/Friday, Thursday rest, Saturday
cross-training — all seven weekdays are named. -/
def tmplFix : WeekTemplate :=
  { focus := ("Building aerobic foundation"), longRunDay := Day.sunday,
    longRunDistance := 10,
    qualityDays := [{ day := Day.tuesday, type := RunType.tempo }],
    easyRunDays := [Day.monday, Day.wednesday, Day.friday],
    restDays := [Day.thursday], crossTrainingDay := some Day.saturday,
    totalMileage := 30 }

/-- Blocked range covering only Sunday 2026-01-18 (the template's long-run
day), with Saturday free: the C1/C2 failing input. -/
def blockedSunday : List BlockedDateRange :=
  [{ start := ("2026-01-18"), endDate := ("2026-01-18"),
     reason := some ("Family event") }]

/-- The schedule the code produces for the C1/C2 failing input. -/
def schedC1C2 : Schedule :=
  generateRunningSchedule tmplFix pzFix Phase.base false PlanLevel.moderate
    blockedSunday weekStartFix

/-- C1: the code evaluated at the failing input.  With the long run moved
from blocked Sunday to free Saturday, the returned map has only six entries
and Sunday has no running assignment at all, so the claimed full coverage of
the seven weekdays fails even for the generator's own default template. -/
theorem c1_running_schedule_coverage_bug :
    mapKeys schedC1C2 =
      [Day.saturday, Day.tuesday, Day.monday, Day.wednesday, Day.friday,
       Day.thursday] ∧
    mapGet schedC1C2 Day.sunday = none := by
  decide

/-- C2: the code evaluated at the failing input.  Sunday is blocked and
Saturday free, and the long run is indeed placed on Saturday at the original
distance — but Sunday is left with no assignment instead of the claimed
`Rest` carrying the block reason, and the code's `RunningWorkout` record has
no adjustment field at all, so no `wasAdjusted` record is produced. -/
theorem c2_long_run_move_bug :
    (isDayBlocked Day.sunday weekStartFix blockedSunday).blocked = true ∧
    (isDayBlocked Day.saturday weekStartFix blockedSunday).blocked = false ∧
    (mapGet schedC1C2 Day.saturday).map (fun w => (w.type, w.totalDistance)) =
      some (RunType.long, some (10 : ℚ)) ∧
    mapGet schedC1C2 Day.sunday = none := by
  decide

/-- Blocked range covering only Monday 2026-01-12 with reason `Skiing` (the
code's `BlockedDateRange` has no `kind` or `crossTrainingActivity` field, so
a cross-training block is not even expressible): the C4 failing input. -/
def blockedMonday : List BlockedDateRange :=
  [{ start := ("2026-01-12"), endDate := ("2026-01-12"),
     reason := some ("Skiing") }]

/-- The schedule the code produces for the C4 failing input. -/
def schedC4 : Schedule :=
  generateRunningSchedule tmplFix pzFix Phase.base false PlanLevel.moderate
    blockedMonday weekStartFix

/-- C4: the code evaluated at the failing input.  The blocked day's running
assignment degrades to a `Rest Day` carrying the reason, not to a
cross-training assignment carrying the activity. -/
theorem c4_cross_training_block_bug :
    isDayBlocked Day.monday weekStartFix blockedMonday =
      { blocked := true, reason := some ("Skiing") } ∧
    (mapGet schedC4 Day.monday).map (fun w => (w.type, w.title, w.notes)) =
      some (RunType.rest, ("Rest Day"), some ("Skiing")) := by
  decide

end Marathon
